import Mathlib

/-!
Verification development for the `letterbox` batch image processor.

The repository contains the current library implementation (the file
embedded below as namespace `Letterbox`, package `letterbox` with
`Processor`, options, `Process`, geometry helpers, `parseAspect` and
`unmodified`) together with an earlier revision of the same library
(embedded as namespace `LetterboxOld`) in which `WithForce` writes the
`white` field and `parseAspect` normalizes the ratio differently.

Modelling conventions:
* Go `float64` values are modelled as exact rationals `ℚ`; the Go
  conversion `int(x)` (truncation toward zero) is `qtrunc`; Go integer
  division (truncation toward zero) is `Int.tdiv`.
* Division of a positive `float64` by `0.0` yields `+Inf`, whose
  conversion to `int` is implementation-defined; a geometry result that
  passes through such a division is modelled as `none`.
* Filesystem probes (`os.Stat`) are external; they are modelled by an
  explicit outcome type `StatResult` passed to the embedded functions.
* A Go runtime panic (index out of range, nil dereference) is modelled
  by a distinguished result (`none`, or the constructor `Res.panic`).
-/

namespace Letterbox

/-- Embedding of Go `image.Point`: an integer pair. -/
structure GoPoint where
  x : ℤ
  y : ℤ
deriving DecidableEq, Repr

/-- Embedding of Go `image.Rectangle`: a min and a max corner. -/
structure GoRect where
  min : GoPoint
  max : GoPoint
deriving DecidableEq, Repr

/-- Go integer division truncates toward zero, which is `Int.tdiv`. -/
def goDiv (a b : ℤ) : ℤ := Int.tdiv a b

/-- Embedding of Go `image.Rect(x0, y0, x1, y1)`: swaps each coordinate
pair so that min is at most max, then builds the rectangle. -/
def imageRect (x0 y0 x1 y1 : ℤ) : GoRect :=
  let xs := if x0 > x1 then (x1, x0) else (x0, x1)
  let ys := if y0 > y1 then (y1, y0) else (y0, y1)
  ⟨⟨xs.1, ys.1⟩, ⟨xs.2, ys.2⟩⟩

/-- Go conversion `int(x)` for a finite `float64`: truncation toward
zero. -/
def qtrunc (q : ℚ) : ℤ := if q < 0 then -(Rat.floor (-q)) else Rat.floor q

/-- Embedding of `centered(s, d)` from the current letterbox.go:
returns `image.Rect(dw/2-(sw/2), dh/2-(sh/2), dw/2+dw, dh/2+sh)` where
`sw sh` are `s.Max` and `dw dh` are `d.Max`. -/
def centered (s d : GoRect) : GoRect :=
  let sw := s.max.x
  let sh := s.max.y
  let dw := d.max.x
  let dh := d.max.y
  imageRect (goDiv dw 2 - goDiv sw 2) (goDiv dh 2 - goDiv sh 2)
    (goDiv dw 2 + dw) (goDiv dh 2 + sh)

/-- Embedding of `aspect(r, aspect)` from the current letterbox.go:
`w, h := float64(r.Max.X), float64(r.Max.Y)`; if `w > h` then
`h = w / aspect` else `w = h * aspect`; returns
`image.Rect(0, 0, int(w), int(h))`.  The guard-free float division by a
zero aspect produces `+Inf` whose `int` conversion is
implementation-defined; that case is modelled as `none`. -/
def aspect (r : GoRect) (a : ℚ) : Option GoRect :=
  let w : ℚ := (r.max.x : ℚ)
  let h : ℚ := (r.max.y : ℚ)
  if h < w then
    if a = 0 then none
    else some (imageRect 0 0 (qtrunc w) (qtrunc (w / a)))
  else
    some (imageRect 0 0 (qtrunc (h * a)) (qtrunc h))

/-- Result of a Go call that returns `(value, error)` but may also abort
with a runtime panic: `ok` is a nil error, `err` a non-nil error, and
`panic` a runtime panic (index out of range, nil dereference). -/
inductive Res (α : Type) where
  | ok (a : α)
  | err
  | panic
deriving DecidableEq, Repr

/-- Splitting a character list around every occurrence of `sep`; the
accumulator holds the current chunk reversed.  This is the semantics of
Go `strings.Split` for a one-character separator: it always yields at
least one (possibly empty) chunk. -/
def splitOnChar (sep : Char) : List Char → List Char → List (List Char)
  | [], acc => [acc.reverse]
  | c :: cs, acc =>
    if c = sep then acc.reverse :: splitOnChar sep cs []
    else splitOnChar sep cs (c :: acc)

/-- Embedding of Go `strings.Split(s, ":")`. -/
def splitColon (s : String) : List String :=
  (splitOnChar ':' s.data []).map fun l => String.mk l

/-- Helper for `parseFloat`: decimal value of a digit list. -/
def digitsVal (l : List Char) : ℕ :=
  l.foldl (fun n c => 10 * n + (c.toNat - 48)) 0

/-- Embedding of Go `strconv.ParseFloat(s, 64)` restricted to the plain
decimal forms `[+-]digits[.digits]` that this program's inputs use (the
full Go parser also accepts exponents, hex floats and inf/nan, none of
which matter for any claim).  The numeric value is kept exact as a
rational instead of being rounded to a `float64`. -/
def parseFloat (s : String) : Option ℚ :=
  let core : List Char → Option ℚ := fun l =>
    match splitOnChar '.' l [] with
    | [ip] =>
      if ip.all Char.isDigit ∧ ip ≠ [] then some (digitsVal ip : ℚ) else none
    | [ip, fp] =>
      if ip.all Char.isDigit ∧ fp.all Char.isDigit ∧ (ip ++ fp) ≠ [] then
        some ((digitsVal ip : ℚ) + (digitsVal fp : ℚ) / (10 ^ fp.length : ℕ))
      else none
    | _ => none
  match s.data with
  | '-' :: rest => (core rest).map Neg.neg
  | '+' :: rest => core rest
  | l => core l

/-- Embedding of `parseAspect` from the current letterbox.go:
`parts := strings.Split(s, ":")`; `parts[0]` is parsed first and its
parse error, if any, is returned before anything else is evaluated;
only then is `parts[1]` indexed and parsed, and the result is `a / b`.
So when the split yields a single part (a colon-free string), the
function returns the parse error if that part is not a number, and
panics on the out-of-range index `parts[1]` only if it is.  (The split
never yields zero parts; that unreachable arm is the `parts[0]` index
panic.) -/
def parseAspect (s : String) : Res ℚ :=
  match splitColon s with
  | p0 :: rest =>
    match parseFloat p0 with
    | none => .err
    | some a =>
      match rest with
      | p1 :: _ =>
        match parseFloat p1 with
        | none => .err
        | some b => .ok (a / b)
      | [] => .panic
  | [] => .panic

/-- Embedding of the `Processor` struct of the current letterbox.go. -/
structure Processor where
  dir : String
  white : Bool
  aspect : ℚ
  quality : ℤ
  concurrency : ℤ
  padding : ℚ
  force : Bool
deriving DecidableEq, Repr

/-- Go zero value of the `Processor` struct (`var v Processor`). -/
def zeroProcessor : Processor :=
  { dir := "", white := false, aspect := 0, quality := 0
    concurrency := 0, padding := 0, force := false }

/-- An `Option` configuration function: it may return an error, and the
one that parses the aspect string may also panic (see `parseAspect`). -/
abbrev OptionFn := Processor → Res Processor

/-- Embedding of `WithWhiteBackground` from the current letterbox.go:
sets the `white` field. -/
def WithWhiteBackground (v : Bool) : OptionFn :=
  fun p => .ok { p with white := v }

/-- Embedding of `WithForce` from the current letterbox.go: sets the
`force` field. -/
def WithForce (v : Bool) : OptionFn :=
  fun p => .ok { p with force := v }

/-- Embedding of `WithPadding`: sets `padding` to `float64(n) / 100`. -/
def WithPadding (n : ℤ) : OptionFn :=
  fun p => .ok { p with padding := (n : ℚ) / 100 }

/-- Embedding of `WithAspect`: `n, err := parseAspect(ratio)` stores `n`
(0 when the parse failed) and returns `err`; a panic inside
`parseAspect` propagates. -/
def WithAspect (s : String) : OptionFn :=
  fun p =>
    match parseAspect s with
    | .ok n => .ok { p with aspect := n }
    | .err => .err
    | .panic => .panic

/-- Embedding of `WithQuality`: sets the `quality` field. -/
def WithQuality (n : ℤ) : OptionFn :=
  fun p => .ok { p with quality := n }

/-- Embedding of `WithConcurrency`: sets the `concurrency` field. -/
def WithConcurrency (n : ℤ) : OptionFn :=
  fun p => .ok { p with concurrency := n }

/-- The option loop of `New`: applies each option in order, returning
the first error (Go: `if err := o(&v); err != nil { return nil, err }`)
and propagating a panic. -/
def applyOptions : Processor → List OptionFn → Res Processor
  | p, [] => .ok p
  | p, o :: os =>
    match o p with
    | .ok p2 => applyOptions p2 os
    | .err => .err
    | .panic => .panic

/-- Embedding of `New(dir, options...)` from the current letterbox.go:
starts from the zero `Processor` with `concurrency = 1`, `quality = 90`
and `dir` set, then applies the options in order. -/
def New (dir : String) (options : List OptionFn) : Res Processor :=
  applyOptions { zeroProcessor with concurrency := 1, quality := 90, dir := dir } options

/-- Outcome of an `os.Stat` probe: the file was found (with its
modification time, encoded as an integer clock), the probe failed with a
not-exist error, or it failed with some other error (for example
permission denied), in which case the returned `FileInfo` is nil. -/
inductive StatResult where
  | found (modTime : ℤ)
  | notExist
  | otherErr
deriving DecidableEq, Repr

/-- Embedding of `unmodified(src, dst)` from the current letterbox.go,
parameterized by the outcomes of its two `os.Stat` probes.  The code
stats `dst` first and returns false on a not-exist error; it then stats
`src` and returns false on any error; finally it compares
`di.ModTime().After(si.ModTime())`.  When the `dst` stat failed with an
error other than not-exist, `di` is a nil interface and the final
comparison dereferences it: a runtime panic, modelled as `none`. -/
def unmodified (srcStat dstStat : StatResult) : Option Bool :=
  match dstStat with
  | .notExist => some false
  | .otherErr =>
    match srcStat with
    | .found _ => none
    | _ => some false
  | .found dm =>
    match srcStat with
    | .found sm => some (decide (sm < dm))
    | _ => some false

/-- The skip decision at the top of `Processor.process`:
`unmodified(path, dstpath) && !p.force` (a panic in `unmodified`
propagates). -/
def processSkip (force : Bool) (srcStat dstStat : StatResult) : Option Bool :=
  (unmodified srcStat dstStat).map fun u => u && !force

/-- State of one run of `Processor.Process(ctx, images)`:
`pending` is the suffix of `images` the admission loop has not yet
reached, `running` are the goroutines spawned by `errg.Go` that have not
returned, `avail` is the free capacity of the weighted semaphore created
with `semaphore.NewWeighted(int64(p.concurrency))`, and `firstErr` is
the first error recorded by the `errgroup` (later errors are dropped).
The run is invoked with `context.Background()` (see cmd/letterbox), so
`sem.Acquire` never fails and admission only ever waits for capacity. -/
structure BatchState where
  pending : List String
  running : List String
  avail : ℕ
  firstErr : Option String
deriving DecidableEq, Repr

/-- Start of a run of `Process`: no goroutine yet, the semaphore holds
`ceiling` units, no error recorded. -/
def initState (ceiling : ℕ) (images : List String) : BatchState :=
  { pending := images, running := [], avail := ceiling, firstErr := none }

/-- The three kinds of atomic step in a run of `Process`: the admission
loop acquires a semaphore unit and spawns the next goroutine (`spawn`),
or a running goroutine returns from `p.process` and releases its unit,
either successfully (`finishOk`) or with an error that the errgroup
records if it is the first (`finishErr`). -/
inductive Event where
  | spawn
  | finishOk (item : String)
  | finishErr (item : String)
deriving DecidableEq, Repr

/-- One step of the `Process` run: `none` when the event is not enabled
in the given state.  Admission takes the next pending item, in order,
and requires a free semaphore unit (`sem.Acquire(ctx, 1)`); note that
its guard does not look at `firstErr` — the admission loop of `Process`
never consults the errgroup.  A finish event requires the item to be
running; it releases the unit (`defer sem.Release(1)`), and a failing
item is recorded only if no earlier error was (`errgroup` keeps the
first error). -/
def execEvent (s : BatchState) : Event → Option BatchState
  | .spawn =>
    match s.pending, s.avail with
    | p :: ps, a + 1 =>
      some { s with pending := ps, running := s.running ++ [p], avail := a }
    | _, _ => none
  | .finishOk item =>
    if item ∈ s.running then
      some { s with running := s.running.erase item, avail := s.avail + 1 }
    else none
  | .finishErr item =>
    if item ∈ s.running then
      some { s with running := s.running.erase item, avail := s.avail + 1,
                    firstErr := some (s.firstErr.getD item) }
    else none

/-- Execution of a sequence of steps; `none` when some step is not
enabled. -/
def execTrace (s : BatchState) : List Event → Option BatchState
  | [] => some s
  | e :: es =>
    match execEvent s e with
    | some s2 => execTrace s2 es
    | none => none

/-- Fail-fast admission as the spec describes it, as a predicate on a
step sequence: `true` when some step admits a new item although an
error is already recorded at that point. -/
def spawnAfterError (s : BatchState) : List Event → Bool
  | [] => false
  | e :: es =>
    match execEvent s e with
    | none => false
    | some s2 =>
      (s.firstErr.isSome && decide (e = Event.spawn)) || spawnAfterError s2 es

end Letterbox

namespace LetterboxOld

/-- Embedding of the `Processor` struct of the earlier letterbox.go
revision (it has no `padding` field). -/
structure Processor where
  dir : String
  white : Bool
  aspect : ℚ
  quality : ℤ
  concurrency : ℤ
  force : Bool
deriving DecidableEq, Repr

/-- Embedding of `WithWhiteBackground` from the earlier revision: sets
the `white` field. -/
def WithWhiteBackground (v : Bool) : Processor → Letterbox.Res Processor :=
  fun p => .ok { p with white := v }

/-- Embedding of `WithForce` from the earlier revision.  Its body is
`p.white = v`: it writes the `white` field, not `force`. -/
def WithForce (v : Bool) : Processor → Letterbox.Res Processor :=
  fun p => .ok { p with white := v }

/-- Embedding of `parseAspect` from the earlier revision: `parts[0]` is
parsed first and its error returned before `parts[1]` is indexed (so a
colon-free non-numeric string returns an error and a colon-free numeric
string panics, as in the current revision); after parsing `a` and `b`
it swaps them when `b > a` and returns `b / a`, that is,
`min(a,b) / max(a,b)`. -/
def parseAspect (s : String) : Letterbox.Res ℚ :=
  match Letterbox.splitColon s with
  | p0 :: rest =>
    match Letterbox.parseFloat p0 with
    | none => .err
    | some a =>
      match rest with
      | p1 :: _ =>
        match Letterbox.parseFloat p1 with
        | none => .err
        | some b =>
          let ab := if b > a then (b, a) else (a, b)
          .ok (ab.2 / ab.1)
      | [] => .panic
  | [] => .panic

end LetterboxOld

namespace Letterbox

/-- Bridge between the executable `Rat.floor` and Mathlib's `⌊·⌋`. -/
lemma rat_floor_eq (q : ℚ) : Rat.floor q = ⌊q⌋ :=
  (Rat.floor_def' q).trans Rat.floor_def.symm

/-- On nonnegative rationals, truncation toward zero is the floor. -/
lemma qtrunc_of_nonneg {q : ℚ} (h : 0 ≤ q) : qtrunc q = ⌊q⌋ := by
  rw [qtrunc, if_neg (not_lt.mpr h), rat_floor_eq]

/-- Truncation of a nonnegative rational is nonnegative. -/
lemma qtrunc_nonneg {q : ℚ} (h : 0 ≤ q) : 0 ≤ qtrunc q := by
  rw [qtrunc_of_nonneg h]
  exact Int.floor_nonneg.mpr h

/-- Truncation is the identity on integers. -/
lemma qtrunc_intCast (n : ℤ) : qtrunc (n : ℚ) = n := by
  have h1 : ((-n : ℤ) : ℚ) = -(n : ℚ) := by push_cast; ring
  unfold qtrunc
  split
  · rw [rat_floor_eq, ← h1, Int.floor_intCast, neg_neg]
  · rw [rat_floor_eq, Int.floor_intCast]

/-- Go `/ 2` of a nonnegative int is nonnegative. -/
lemma goDiv_two_nonneg {a : ℤ} (h : 0 ≤ a) : 0 ≤ goDiv a 2 :=
  Int.tdiv_nonneg h (by norm_num)

/-- When the corners are already ordered, `image.Rect` does not swap. -/
lemma imageRect_of_le {x0 y0 x1 y1 : ℤ} (hx : x0 ≤ x1) (hy : y0 ≤ y1) :
    imageRect x0 y0 x1 y1 = ⟨⟨x0, y0⟩, ⟨x1, y1⟩⟩ := by
  unfold imageRect
  rw [if_neg (not_lt.mpr hx), if_neg (not_lt.mpr hy)]

/-- The semaphore invariant of a `Process` run: every admitted goroutine
holds exactly one of the `ceiling` units, so the units running plus the
units free always account for the whole semaphore. -/
def semInvariant (ceiling : ℕ) (s : BatchState) : Prop :=
  s.running.length + s.avail = ceiling

/-- Every enabled step preserves the semaphore invariant: admission
moves a free unit to a running goroutine, and a finishing goroutine
returns its unit. -/
lemma execEvent_semInvariant {c : ℕ} {s s' : BatchState} {e : Event}
    (h : execEvent s e = some s') (hinv : semInvariant c s) : semInvariant c s' := by
  obtain ⟨pend, run, av, fe⟩ := s
  have hinv2 : run.length + av = c := hinv
  unfold semInvariant
  cases e with
  | spawn =>
    cases pend with
    | nil => exact absurd h (by simp [execEvent])
    | cons p ps =>
      cases av with
      | zero => exact absurd h (by simp [execEvent])
      | succ a =>
        cases h
        show (run ++ [p]).length + a = c
        rw [List.length_append]
        simp only [List.length_cons, List.length_nil]
        omega
  | finishOk item =>
    by_cases hmem : item ∈ run
    · rw [show execEvent ⟨pend, run, av, fe⟩ (Event.finishOk item) =
          some ⟨pend, run.erase item, av + 1, fe⟩ from by simp [execEvent, hmem]] at h
      cases h
      have hlen := List.length_erase_of_mem hmem
      have hpos : 0 < run.length := List.length_pos.mpr (List.ne_nil_of_mem hmem)
      show (run.erase item).length + (av + 1) = c
      rw [hlen]
      omega
    · exact absurd h (by simp [execEvent, hmem])
  | finishErr item =>
    by_cases hmem : item ∈ run
    · rw [show execEvent ⟨pend, run, av, fe⟩ (Event.finishErr item) =
          some ⟨pend, run.erase item, av + 1, some (fe.getD item)⟩ from by
            simp [execEvent, hmem]] at h
      cases h
      have hlen := List.length_erase_of_mem hmem
      have hpos : 0 < run.length := List.length_pos.mpr (List.ne_nil_of_mem hmem)
      show (run.erase item).length + (av + 1) = c
      rw [hlen]
      omega
    · exact absurd h (by simp [execEvent, hmem])

/-- The semaphore invariant holds in every state a run can reach. -/
lemma execTrace_semInvariant {c : ℕ} : ∀ {tr : List Event} {s s' : BatchState},
    execTrace s tr = some s' → semInvariant c s → semInvariant c s'
  | [], s, s', h, hinv => by
    unfold execTrace at h
    cases h
    exact hinv
  | e :: es, s, s', h, hinv => by
    unfold execTrace at h
    split at h
    · exact execTrace_semInvariant h (execEvent_semInvariant (by assumption) hinv)
    · cases h

/-- C1: for every concurrency ceiling at least 1 and every list of
items, in every state reachable during a run of `Processor.Process` the
number of simultaneously running per-item transform goroutines never
exceeds the ceiling; each goroutine holds one semaphore unit from
admission until completion (the invariant `semInvariant`, preserved by
every step, states exactly that the running goroutines and the free
capacity together account for all `ceiling` units). -/
theorem c1_concurrency_ceiling (c : ℕ) (images : List String) (tr : List Event)
    (s : BatchState) (hc : 1 ≤ c)
    (h : execTrace (initState c images) tr = some s) :
    s.running.length ≤ c := by
  have hinv : semInvariant c s :=
    execTrace_semInvariant h (by simp [semInvariant, initState])
  unfold semInvariant at hinv
  omega

/-- Witness for C1 at ceiling 1, one item, after one admission step. -/
theorem c1_concurrency_ceiling_witness :
    1 ≤ 1 ∧ (BatchState.mk [] ["a"] 0 none).running.length ≤ 1 :=
  ⟨by decide,
    c1_concurrency_ceiling 1 ["a"] [Event.spawn] (BatchState.mk [] ["a"] 0 none)
      (by decide) (by decide)⟩

/-- C2 counterexample: with ceiling 1 and items `["a", "b"]`, the trace
that admits `a`, records `a`'s failure, and then admits `b` is a valid
execution of `Processor.Process`, and it admits an item after an error
was recorded — the claimed fail-fast admission is violated, because the
admission loop never consults the errgroup. -/
theorem c2_counterexample :
    (execTrace (initState 1 ["a", "b"])
        [Event.spawn, Event.finishErr "a", Event.spawn]).isSome = true ∧
    spawnAfterError (initState 1 ["a", "b"])
        [Event.spawn, Event.finishErr "a", Event.spawn] = true := by
  decide

/-- C2 amended: `Processor.Process` does not stop admitting items after
a per-item failure is recorded; admission depends only on a pending
item and a free semaphore unit, so a pending item is admitted even when
an error has already been recorded, and the first error is surfaced
only by `errg.Wait()` after every admitted goroutine finishes. -/
theorem c2_admission_ignores_errors (s : BatchState) (e : String) (x : String)
    (xs : List String) (a : ℕ) (herr : s.firstErr = some e)
    (hp : s.pending = x :: xs) (ha : s.avail = a + 1) :
    execEvent s Event.spawn =
      some { s with pending := xs, running := s.running ++ [x], avail := a } := by
  obtain ⟨pend, run, av, fe⟩ := s
  simp only at hp ha
  subst hp ha
  rfl

/-- Witness for C2 amended: a state with a recorded error, a pending
item and a free unit admits that item. -/
theorem c2_admission_ignores_errors_witness :
    (BatchState.mk ["b"] [] 1 (some "a")).firstErr = some "a" ∧
    (BatchState.mk ["b"] [] 1 (some "a")).pending = ["b"] ∧
    (BatchState.mk ["b"] [] 1 (some "a")).avail = 0 + 1 ∧
    execEvent (BatchState.mk ["b"] [] 1 (some "a")) Event.spawn =
      some (BatchState.mk [] ["b"] 0 (some "a")) :=
  ⟨rfl, rfl, rfl,
    c2_admission_ignores_errors (BatchState.mk ["b"] [] 1 (some "a")) "a" "b" [] 0
      rfl rfl rfl⟩

end Letterbox

namespace Letterbox

/-- C3 counterexample: with the parsed factor 2 (from the ratio string
`"2:1"`), a 4×3 landscape source yields the canvas 4×2 from `aspect`:
the canvas height 2 is smaller than the source height 3, so the target
canvas does not contain the source — the code crops landscape sources
whose width/height ratio is below the factor. -/
theorem c3_counterexample :
    parseAspect "2:1" = .ok 2 ∧
    aspect ⟨⟨0, 0⟩, ⟨4, 3⟩⟩ 2 = some ⟨⟨0, 0⟩, ⟨4, 2⟩⟩ ∧
    ¬ (3 : ℤ) ≤ 2 := by
  refine ⟨?_, ?_, by decide⟩
  · have h : parseAspect "2:1" = .ok (((2 : ℕ) : ℚ) / ((1 : ℕ) : ℚ)) := rfl
    rw [h]
    norm_num
  · have h42 : (((4 : ℤ) : ℚ)) / 2 = ((2 : ℤ) : ℚ) := by norm_num
    simp only [aspect]
    rw [if_pos (by norm_num), if_neg (by norm_num), h42, qtrunc_intCast, qtrunc_intCast]
    norm_num [imageRect]

/-- C3 amended: `aspect` keeps the larger source axis fixed; when the
height is at least the width it derives the width as `trunc(h * f)`,
which for `f ≥ 1` is at least both source axes, so the canvas contains
the source; but when the width is larger it derives the height as
`trunc(w / f)` — dividing by the factor, not multiplying — which can be
smaller than the source height, so containment is not guaranteed for
landscape sources. -/
theorem c3_aspect_amended (w h : ℤ) (f : ℚ) (hw : 0 ≤ w) (hh : 0 ≤ h) (hf : 1 ≤ f) :
    (w ≤ h →
      aspect ⟨⟨0, 0⟩, ⟨w, h⟩⟩ f = some ⟨⟨0, 0⟩, ⟨qtrunc ((h : ℚ) * f), h⟩⟩ ∧
      w ≤ qtrunc ((h : ℚ) * f) ∧ h ≤ qtrunc ((h : ℚ) * f)) ∧
    (h < w →
      aspect ⟨⟨0, 0⟩, ⟨w, h⟩⟩ f = some ⟨⟨0, 0⟩, ⟨w, qtrunc ((w : ℚ) / f)⟩⟩) := by
  have hf0 : (0 : ℚ) < f := lt_of_lt_of_le one_pos hf
  constructor
  · intro hwh
    have hhf : (0 : ℚ) ≤ (h : ℚ) * f := by positivity
    have hW : h ≤ qtrunc ((h : ℚ) * f) := by
      rw [qtrunc_of_nonneg hhf, Int.le_floor]
      calc ((h : ℤ) : ℚ) = (h : ℚ) * 1 := (mul_one _).symm
        _ ≤ (h : ℚ) * f := by
            apply mul_le_mul_of_nonneg_left hf
            exact_mod_cast hh
    have hwW : w ≤ qtrunc ((h : ℚ) * f) := le_trans hwh hW
    refine ⟨?_, hwW, hW⟩
    simp only [aspect]
    rw [if_neg (by exact_mod_cast not_lt.mpr hwh)]
    rw [qtrunc_intCast]
    rw [imageRect_of_le (qtrunc_nonneg hhf) hh]
  · intro hhw
    have hwf : (0 : ℚ) ≤ (w : ℚ) / f := by positivity
    simp only [aspect]
    rw [if_pos (by exact_mod_cast hhw)]
    rw [if_neg (ne_of_gt hf0)]
    rw [qtrunc_intCast]
    rw [imageRect_of_le hw (qtrunc_nonneg hwf)]

/-- Witness for C3 amended at the 3×4 portrait source with factor 2:
the canvas is `(trunc(4 * 2), 4)` and contains the source. -/
theorem c3_aspect_amended_witness :
    aspect ⟨⟨0, 0⟩, ⟨3, 4⟩⟩ 2 = some ⟨⟨0, 0⟩, ⟨qtrunc (((4 : ℤ) : ℚ) * 2), 4⟩⟩ ∧
    (3 : ℤ) ≤ qtrunc (((4 : ℤ) : ℚ) * 2) ∧ (4 : ℤ) ≤ qtrunc (((4 : ℤ) : ℚ) * 2) :=
  (c3_aspect_amended 3 4 2 (by decide) (by decide) one_le_two).1 (by decide)

/-- C4 counterexample: for a 4×4 source centered in an 8×8 canvas,
`centered` returns the rectangle from (2,2) to (12,8): its width 10 is
not the source width 4 (the max corner `(dw/2+dw, dh/2+sh)` overshoots;
the drawn area is only correct because `draw.Draw` clips to the source
bounds). -/
theorem c4_counterexample :
    centered ⟨⟨0, 0⟩, ⟨4, 4⟩⟩ ⟨⟨0, 0⟩, ⟨8, 8⟩⟩ = ⟨⟨2, 2⟩, ⟨12, 8⟩⟩ ∧
    (12 : ℤ) - 2 ≠ 4 := by decide

/-- C4 amended: the placement rectangle's top-left corner is
`(dw/2 - sw/2, dh/2 - sh/2)` with truncating integer division, as
claimed, but its max corner is `(dw/2 + dw, dh/2 + sh)`, so its extents
are at least — not exactly — the source's width and height; the
composited region is exactly the source size only after `draw.Draw`
clips the rectangle to the source bounds. -/
theorem c4_centered_amended (sw sh dw dh : ℤ) (hsw : 0 ≤ sw) (hsh : 0 ≤ sh)
    (hdw : 0 ≤ dw) (hdh : 0 ≤ dh) :
    (centered (imageRect 0 0 sw sh) (imageRect 0 0 dw dh)).min =
      ⟨goDiv dw 2 - goDiv sw 2, goDiv dh 2 - goDiv sh 2⟩ ∧
    (centered (imageRect 0 0 sw sh) (imageRect 0 0 dw dh)).max =
      ⟨goDiv dw 2 + dw, goDiv dh 2 + sh⟩ ∧
    (sw ≤ dw →
      sw ≤ (centered (imageRect 0 0 sw sh) (imageRect 0 0 dw dh)).max.x -
        (centered (imageRect 0 0 sw sh) (imageRect 0 0 dw dh)).min.x) ∧
    (sh ≤ (centered (imageRect 0 0 sw sh) (imageRect 0 0 dw dh)).max.y -
      (centered (imageRect 0 0 sw sh) (imageRect 0 0 dw dh)).min.y) := by
  have e1 : imageRect 0 0 sw sh = ⟨⟨0, 0⟩, ⟨sw, sh⟩⟩ := imageRect_of_le hsw hsh
  have e2 : imageRect 0 0 dw dh = ⟨⟨0, 0⟩, ⟨dw, dh⟩⟩ := imageRect_of_le hdw hdh
  have hs2 : 0 ≤ goDiv sw 2 := goDiv_two_nonneg hsw
  have hh2 : 0 ≤ goDiv sh 2 := goDiv_two_nonneg hsh
  have e3 : centered ⟨⟨0, 0⟩, ⟨sw, sh⟩⟩ ⟨⟨0, 0⟩, ⟨dw, dh⟩⟩ =
      ⟨⟨goDiv dw 2 - goDiv sw 2, goDiv dh 2 - goDiv sh 2⟩,
        ⟨goDiv dw 2 + dw, goDiv dh 2 + sh⟩⟩ := by
    unfold centered
    show imageRect (goDiv dw 2 - goDiv sw 2) (goDiv dh 2 - goDiv sh 2)
        (goDiv dw 2 + dw) (goDiv dh 2 + sh) =
      ⟨⟨goDiv dw 2 - goDiv sw 2, goDiv dh 2 - goDiv sh 2⟩,
        ⟨goDiv dw 2 + dw, goDiv dh 2 + sh⟩⟩
    exact imageRect_of_le (by omega) (by omega)
  rw [e1, e2, e3]
  refine ⟨rfl, rfl, ?_, ?_⟩
  · intro hswdw
    simp only
    omega
  · simp only
    omega

/-- Witness for C4 amended at a 2×2 source in a 6×4 canvas. -/
theorem c4_centered_amended_witness :
    (centered (imageRect 0 0 2 2) (imageRect 0 0 6 4)).min =
      ⟨goDiv 6 2 - goDiv 2 2, goDiv 4 2 - goDiv 2 2⟩ :=
  (c4_centered_amended 2 2 6 4 (by decide) (by decide) (by decide) (by decide)).1

end Letterbox

namespace Letterbox

/-- Behaviour of `splitOnChar` on a chunk free of the separator. -/
lemma splitOnChar_of_not_mem {sep : Char} :
    ∀ {l : List Char} (acc : List Char), sep ∉ l →
      splitOnChar sep l acc = [acc.reverse ++ l]
  | [], acc, _ => by simp [splitOnChar]
  | c :: cs, acc, h => by
    have hc : ¬ c = sep := fun hcs => h (hcs ▸ List.mem_cons_self c cs)
    have hcs : sep ∉ cs := fun hm => h (List.mem_cons_of_mem c hm)
    rw [splitOnChar, if_neg hc, splitOnChar_of_not_mem (c :: acc) hcs]
    simp

/-- Behaviour of `splitOnChar` at the first separator occurrence. -/
lemma splitOnChar_append {sep : Char} :
    ∀ {l1 : List Char} (l2 acc : List Char), sep ∉ l1 →
      splitOnChar sep (l1 ++ sep :: l2) acc =
        (acc.reverse ++ l1) :: splitOnChar sep l2 []
  | [], l2, acc, _ => by simp [splitOnChar]
  | c :: cs, l2, acc, h => by
    have hc : ¬ c = sep := fun hcs => h (hcs ▸ List.mem_cons_self c cs)
    have hcs : sep ∉ cs := fun hm => h (List.mem_cons_of_mem c hm)
    rw [List.cons_append, splitOnChar, if_neg hc, splitOnChar_append l2 (c :: acc) hcs]
    simp

/-- Go `strings.Split` on a string with exactly one colon. -/
lemma splitColon_append (s t : String) (hs : ':' ∉ s.data) (ht : ':' ∉ t.data) :
    splitColon (s ++ ":" ++ t) = [s, t] := by
  have hdata : (s ++ ":" ++ t).data = s.data ++ ':' :: t.data := by
    simp [String.data_append]
  unfold splitColon
  rw [hdata, splitOnChar_append t.data [] hs, splitOnChar_of_not_mem [] ht]
  simp

/-- C5 counterexample: `parseAspect "9:16"` yields 9/16, which is
neither at least 1 nor equal to `max/min = 16/9`, and differs from
`parseAspect "16:9" = 16/9`: the code performs no normalization, so the
factor is not symmetric in the two components. -/
theorem c5_counterexample :
    parseAspect "9:16" = .ok (9 / 16) ∧ ¬ (1 : ℚ) ≤ 9 / 16 ∧
    parseAspect "16:9" = .ok (16 / 9) ∧ (9 : ℚ) / 16 ≠ 16 / 9 := by
  have h1 : parseAspect "9:16" = .ok (((9 : ℕ) : ℚ) / ((16 : ℕ) : ℚ)) := rfl
  have h2 : parseAspect "16:9" = .ok (((16 : ℕ) : ℚ) / ((9 : ℕ) : ℚ)) := rfl
  refine ⟨?_, by norm_num, ?_, by norm_num⟩
  · rw [h1]; norm_num
  · rw [h2]; norm_num

/-- C5 amended: `parseAspect "a:b"` in the current letterbox.go returns
the unnormalized quotient `a / b` of the first component by the second;
reversing the components therefore yields the reciprocal, not the same
factor, and the result is at least 1 only when `a ≥ b`. -/
theorem c5_parse_amended (s t : String) (a b : ℚ)
    (hsa : parseFloat s = some a) (htb : parseFloat t = some b)
    (hs : ':' ∉ s.data) (ht : ':' ∉ t.data) :
    parseAspect (s ++ ":" ++ t) = .ok (a / b) := by
  unfold parseAspect
  rw [splitColon_append s t hs ht]
  simp [hsa, htb]

/-- Witness for C5 amended at `"16" ++ ":" ++ "9"`. -/
theorem c5_parse_amended_witness :
    parseFloat "16" = some 16 ∧ parseFloat "9" = some 9 ∧
    parseAspect ("16" ++ ":" ++ "9") = .ok (16 / 9) :=
  ⟨by decide, by decide,
    c5_parse_amended "16" "9" 16 9 (by decide) (by decide) (by decide) (by decide)⟩

/-- C6: the per-item transform skips an item exactly when `force` is
false, the destination exists and the destination's modification time
is strictly after the source's; a missing destination is always
processed whatever the source probe yields, and `force = true` always
processes (the skip value is false) regardless of timestamps. -/
theorem c6_skip_iff (force : Bool) (sm dm : ℤ) :
    (processSkip force (.found sm) (.found dm) = some true ↔
      force = false ∧ sm < dm) ∧
    (∀ st : StatResult, processSkip force st .notExist = some false) ∧
    processSkip true (.found sm) (.found dm) = some false := by
  refine ⟨?_, ?_, ?_⟩
  · cases force <;> simp [processSkip, unmodified, decide_eq_true_iff]
  · intro st
    cases st <;> cases force <;> rfl
  · simp [processSkip, unmodified]

/-- C7: evaluation of `unmodified` when the destination stat fails with
an error other than not-exist while the source stat succeeds: the nil
`FileInfo` is dereferenced (`di.ModTime()`), a runtime panic — modelled
as `none` — instead of the claimed and documented "errors are treated
as falsey".  When the source stat also fails, the function does return
false before touching the nil value. -/
theorem c7_unmodified_panic :
    unmodified (.found 0) .otherErr = none ∧
    unmodified .notExist .otherErr = some false ∧
    unmodified .otherErr .otherErr = some false := by
  decide

/-- C8: in the current letterbox.go, `WithForce v` sets exactly the
`force` field and `WithWhiteBackground v` sets exactly the `white`
field, leaving the other unchanged — but in the earlier revision
(src/letterbox.go) the body of `WithForce` writes the `white` field and
leaves `force` unchanged, contradicting its own doc comment: the
aliasing bug. -/
theorem c8_force_white_fields :
    (∀ (v : Bool) (p : Processor), ∃ q,
      WithForce v p = .ok q ∧ q.force = v ∧ q.white = p.white) ∧
    (∀ (v : Bool) (p : Processor), ∃ q,
      WithWhiteBackground v p = .ok q ∧ q.white = v ∧ q.force = p.force) ∧
    (∀ (v : Bool) (p : LetterboxOld.Processor), ∃ q,
      LetterboxOld.WithForce v p = .ok q ∧ q.white = v ∧ q.force = p.force) :=
  ⟨fun v p => ⟨{ p with force := v }, rfl, rfl, rfl⟩,
    fun v p => ⟨{ p with white := v }, rfl, rfl, rfl⟩,
    fun v p => ⟨{ p with white := v }, rfl, rfl, rfl⟩⟩

/-- C9: evaluation at colon-free aspect strings.  For `"16"` — a
colon-free string whose single part does parse as a number — the code
indexes `parts[1]` out of range and panics, so `New` with that
`WithAspect` option aborts with a runtime panic rather than surfacing a
configuration error: `parseAspect` is not total as a function into
error-or-value.  (A colon-free string whose part is not a number, such
as `"16x9"`, returns the `ParseFloat` error before `parts[1]` is
indexed, as the claim says.) -/
theorem c9_parse_aspect_panics :
    New "processed" [WithAspect "16"] = .panic ∧
    parseAspect "16" = .panic ∧
    parseAspect "16x9" = .err := by
  decide

/-- C10: a `Processor` built by `New` without a `WithAspect` option
keeps the zero-value aspect field 0, and for any source whose width
exceeds its height the geometry computation divides the width by that
zero aspect with no guard (the implementation-defined result is
modelled as `none`): the division in `aspect` is only safe when a valid
aspect option was supplied. -/
theorem c10_zero_aspect_unsafe (dir : String) (w h : ℤ) (hw : h < w) :
    ∃ p, New dir [] = .ok p ∧ p.aspect = 0 ∧
      aspect ⟨⟨0, 0⟩, ⟨w, h⟩⟩ p.aspect = none := by
  refine ⟨{ zeroProcessor with concurrency := 1, quality := 90, dir := dir },
    rfl, rfl, ?_⟩
  show aspect ⟨⟨0, 0⟩, ⟨w, h⟩⟩ 0 = none
  simp only [aspect]
  rw [if_pos (show ((h : ℤ) : ℚ) < ((w : ℤ) : ℚ) by exact_mod_cast hw)]
  simp

/-- Witness for C10 with a 16×9 landscape source. -/
theorem c10_zero_aspect_unsafe_witness :
    (9 : ℤ) < 16 ∧
    ∃ p, New "processed" [] = .ok p ∧ p.aspect = 0 ∧
      aspect ⟨⟨0, 0⟩, ⟨16, 9⟩⟩ p.aspect = none :=
  ⟨by decide, c10_zero_aspect_unsafe "processed" 16 9 (by decide)⟩

end Letterbox
